import Mathlib

/-!
Verification development for the `lmk` scraper (Rust sources under `src/`).

The development shallowly embeds the change-detection core of the program:

* `src/myscraper.rs`: `Target`, `Scraper::target_id`, `Scraper::handle_page_content`,
  the aggregation loop of `Scraper::scrape`, the fetch-outcome classification of the
  per-target worker threads, and the `Metrics` background consumer;
* `src/db.rs`: the key-value cache `Db::get` / `Db::put`.

Rust standard-library operations used by that code (`str::contains`, `str::lines`,
`writeln!` into a `String`, `Vec<u8>::len` of UTF-8 bytes) are modelled by
executable Lean functions on `String` / `List Char` that follow the documented
Rust semantics.  HTML parsing (the external `scraper` crate) is not repository
code: a parsed document is represented by its list of text nodes in document
order, and the aggregation loop is parametric in the parse function.
-/

namespace Lmk

/-! ## Rust standard library string operations -/

/-- Does the character list `p` occur as a prefix of `h`?  Kernel-executable
model of the prefix test underlying `str::contains`. -/
def listStartsWith : List Char → List Char → Bool
  | [], _ => true
  | _ :: _, [] => false
  | p :: ps, h :: hs => p == h && listStartsWith ps hs

/-- Occurrence of `pat` as a contiguous substring of the second list.
Model of Rust `str::contains` (literal, case-sensitive substring search). -/
def occursIn (pat : List Char) : List Char → Bool
  | [] => pat.isEmpty
  | h :: hs => listStartsWith pat (h :: hs) || occursIn pat hs

/-- Rust `hay.contains(pat)` for string slices: literal substring match. -/
def rustContains (hay pat : String) : Bool :=
  occursIn pat.data hay.data

/-- Split a character list at every newline character.  Always returns at least
one (possibly empty) piece; a trailing newline yields a final empty piece. -/
def splitNL : List Char → List (List Char)
  | [] => [[]]
  | c :: rest =>
    let s := splitNL rest
    if c = '\n' then [] :: s
    else (c :: s.headD []) :: s.tail

/-- Drop the final piece when it is empty: Rust `str::lines` does not emit an
empty final line for a string that ends with a line terminator. -/
def dropFinalEmpty : List (List Char) → List (List Char)
  | [] => []
  | [l] => if l.isEmpty then [] else [l]
  | l :: ls => l :: dropFinalEmpty ls

/-- Remove one trailing carriage return, as Rust `str::lines` does on each
produced line (a `\x5cr\x5cn` terminator counts as a line ending). -/
def stripCR (l : List Char) : List Char :=
  if l.getLast? = some '\r' then l.dropLast else l

/-- Model of Rust `str::lines`: split on newline, drop an empty final piece,
strip one trailing carriage return from each line. -/
def rustLines (s : String) : List String :=
  (dropFinalEmpty (splitNL s.data)).map (fun l => String.mk (stripCR l))

/-- Model of repeatedly executing `writeln!(buf, "{}", x)`: each element is
appended followed by a newline character. -/
def writelnJoin : List String → String
  | [] => ""
  | f :: fs => f ++ "\n" ++ writelnJoin fs

/-- Byte length of the UTF-8 encoding of a string: model of `Vec<u8>::len` for
the byte buffers the Rust code writes strings into. -/
def rustByteLen (s : String) : Nat :=
  s.data.foldl (fun n c => n + c.utf8Size) 0

/-! ## Data model (`src/myscraper.rs`) -/

/-- `Target` from `src/myscraper.rs`: a page URI, the text to search for in the
page, and a human-only description. -/
structure Target where
  uri : String
  text : String
  description : String
deriving DecidableEq

/-- `Scraper::target_id`: the cache key of a target, `uri` and `text` joined
with a colon. -/
def target_id (t : Target) : String :=
  t.uri ++ ":" ++ t.text

/-- One invocation of `Sender::send(addr, target, msg)` recorded with its
arguments. -/
structure SentMsg where
  addr : String
  target : Target
  msg : String
deriving DecidableEq

/-! ## itertools `unique` -/

/-- Worker for `Itertools::unique` with the set of already seen elements:
keeps the first occurrence of every element, drops later duplicates. -/
def uniqueAux (seen : List String) : List String → List String
  | [] => []
  | x :: xs => if x ∈ seen then uniqueAux seen xs else x :: uniqueAux (x :: seen) xs

/-- `Itertools::unique`: deduplicate, preserving first-seen order. -/
def unique (l : List String) : List String :=
  uniqueAux [] l

/-! ## Fragment extraction and diffing (`Scraper::handle_page_content`) -/

/-- The fragment pipeline of `handle_page_content` up to `unique()`:
`content.filter_map(|x| if x.contains(&target.text) { Some(x) } else { None }).unique()`
applied to the text nodes of the parsed page in document order. -/
def computeFragments (textNodes : List String) (text : String) : List String :=
  unique (textNodes.filterMap (fun x => if rustContains x text then some x else none))

/-- Spec-side description of the fragment set (from the specification text, for
comparison with `computeFragments`): the distinct text nodes, in document
order, that contain the target text, deduplicated preserving first-seen
order. -/
def specFragments (textNodes : List String) (text : String) : List String :=
  (textNodes.filter (fun x => rustContains x text)).foldl
    (fun acc x => if x ∈ acc then acc else acc ++ [x]) []

/-- Observable result of one `handle_page_content` call: the `Sender::send`
invocations it performs, in order, and the value it writes to the cache. -/
structure HandleResult where
  sent : List SentMsg
  cacheValue : String
deriving DecidableEq

/-- `Scraper::handle_page_content`, given the raw cache read result
(`target_cache.get(&cache_id)`) and the text nodes of the parsed page:

* `old_contents = get(..).unwrap_or("")`, `old_matches = old_contents.lines()`;
* the matching text nodes are deduplicated with `unique()`;
* every unique match is written to the new cache value with `writeln!`;
* matches absent from `old_matches` are reported through
  `sender.send("everyone@everyone.com", target, format!("Found match: {}", x))`. -/
def handle_page_content (oldRead : Option String) (textNodes : List String)
    (target : Target) : HandleResult :=
  let old_contents := oldRead.getD ""
  let old_matches := rustLines old_contents
  let frags := computeFragments textNodes target.text
  { sent := (frags.filter (fun x => !(old_matches.contains x))).map
      (fun x => ⟨"everyone@everyone.com", target, "Found match: " ++ x⟩)
    cacheValue := writelnJoin frags }

/-! ## Key-value cache (`src/db.rs`) -/

/-- `Db::get`: look the key up in the store (modelled as an association list
with unique keys, in insertion order). -/
def dbGet (db : List (String × String)) (key : String) : Option String :=
  (db.find? (fun kv => kv.1 == key)).map (fun kv => kv.2)

/-- `Db::put`: `REPLACE INTO kv` deletes any row with the key and inserts the
new row (single-key upsert). -/
def dbPut (db : List (String × String)) (key value : String) : List (String × String) :=
  (db.filter (fun kv => kv.1 != key)) ++ [(key, value)]

/-- The cache read as `handle_page_content` sees it: `Db::get` maps every
underlying SQLite failure to `None`, so a failing read is indistinguishable
from an absent key. -/
def dbRead (readFails : Bool) (db : List (String × String)) (key : String) : Option String :=
  if readFails then none else dbGet db key

/-! ## Fetch outcome classification (worker threads in `Scraper::scrape`) -/

/-- Per-target fetch outcome sent over the channel (`ThreadMessage` in the
source): the decoded body on success, a status string on failure. -/
inductive FetchOutcome where
  | ok (body : String)
  | err (status : String)
deriving DecidableEq

/-- Result of `reqwest::blocking::get(&t.uri).map(|x| x.text())` as the worker
thread observes it.  `reqwest` returns `Ok(response)` for every received HTTP
response regardless of its status code; `response` carries the wire status and
the body-decode result.  A transport-level failure (connection error, timeout)
may or may not carry a wire status code. -/
inductive HttpEvent where
  | response (status : Nat) (body : Except String String)
  | transportFailure (wireStatus : Option Nat)

/-- The worker thread classification in `Scraper::scrape`:
`Ok(Ok(x))` becomes `ThreadMessage::Ok(x)`; `Ok(Err(e))` and `Err(e)` become
`ThreadMessage::Err(status)` with `status = e.status().map_or("unknown", to_string)`.
`statusStr` renders a wire status code as `reqwest::StatusCode::to_string`
does (an external crate concern, kept parametric). -/
def threadMessageOf (statusStr : Nat → String) : HttpEvent → FetchOutcome
  | .response _ (.ok body) => .ok body
  | .response code (.error _) => .err (statusStr code)
  | .transportFailure (some code) => .err (statusStr code)
  | .transportFailure none => .err "unknown"

/-- A concrete status rendering, used to instantiate counterexamples. -/
def natStatusString (n : Nat) : String :=
  toString n

/-! ## Aggregation loop of `Scraper::scrape` -/

/-- State observable across the aggregation loop: the cache contents, the
`Sender::send` calls made so far, and the `inc_req` metrics events recorded so
far as `(target uri, status)` pairs. -/
structure ScrapeState where
  cache : List (String × String)
  sent : List SentMsg
  metrics : List (String × String)
deriving DecidableEq

/-- Processing of one received `(target, message)` pair by the aggregation
loop: on `Ok` the body is parsed (`parse` stands for the external HTML parser,
yielding text nodes in document order), `handle_page_content` runs, the cache
is updated (`putFails` models a logged-and-ignored `Db::put` failure), and an
`OK` metrics event is recorded; on `Err` only a metrics event with the carried
status is recorded. -/
def processMessage (readFails putFails : Bool) (parse : String → List String)
    (st : ScrapeState) (m : Target × FetchOutcome) : ScrapeState :=
  match m.2 with
  | .ok body =>
    let r := handle_page_content (dbRead readFails st.cache (target_id m.1)) (parse body) m.1
    { cache := if putFails then st.cache else dbPut st.cache (target_id m.1) r.cacheValue
      sent := st.sent ++ r.sent
      metrics := st.metrics ++ [(m.1.uri, "OK")] }
  | .err s => { st with metrics := st.metrics ++ [(m.1.uri, s)] }

/-- `handle_page_content` as a fallible call: the Rust function returns
`Result<(), _>` and is invoked with `?`, but every path of its body ends in
`Ok(())` (a `Db::put` failure is logged, not propagated). -/
def handlePageE (oldRead : Option String) (textNodes : List String)
    (target : Target) : Except String HandleResult :=
  Except.ok (handle_page_content oldRead textNodes target)

/-- One step of the aggregation loop with the error propagation of the source
(`self.handle_page_content(page, t)?`). -/
def processMessageE (readFails putFails : Bool) (parse : String → List String)
    (st : ScrapeState) (m : Target × FetchOutcome) : Except String ScrapeState :=
  match m.2 with
  | .ok body => do
    let r ← handlePageE (dbRead readFails st.cache (target_id m.1)) (parse body) m.1
    pure { cache := if putFails then st.cache else dbPut st.cache (target_id m.1) r.cacheValue
           sent := st.sent ++ r.sent
           metrics := st.metrics ++ [(m.1.uri, "OK")] }
  | .err s => pure { st with metrics := st.metrics ++ [(m.1.uri, s)] }

/-- The aggregation loop of `Scraper::scrape`: the received `(target, message)`
pairs are consumed in arrival order; an empty target list yields no messages.
The loop is the only fallible part of `scrape`; the surrounding
`thread::scope` block ends in `Ok(())`. -/
def scrapeE (readFails putFails : Bool) (parse : String → List String)
    (st : ScrapeState) (msgs : List (Target × FetchOutcome)) : Except String ScrapeState :=
  msgs.foldlM (processMessageE readFails putFails parse) st

/-- The metrics status recorded for a message, as the aggregation loop does
it: `"OK"` for a handled body, the carried status for a failure. -/
def outcomeStatus : FetchOutcome → String
  | .ok _ => "OK"
  | .err s => s

/-- A parse function for closed statements (irrelevant page structure). -/
def noParse : String → List String :=
  fun _ => []

/-! ## Metrics background consumer (`Metrics::new` in `src/myscraper.rs`) -/

/-- State of the metrics writer thread: the in-memory byte buffer, the bytes
appended to the durable log so far (both kept as strings; the file content is
their UTF-8 encoding), and the number of `write_buffer` attempts made so far
(used to index the flush outcome schedule). -/
structure MetricsState where
  buffer : String
  logFile : String
  flushCount : Nat
deriving DecidableEq

/-- The `write_buffer` closure of the metrics thread: it tries to open
`scraper-metrics.csv` in append mode and `write_all` the buffer; `writeOk n`
says whether the n-th attempt succeeds.  On failure the error is logged and
swallowed and nothing reaches the log (an open failure appends no bytes; a
failed `write_all` is not retried — the model collapses a possible partial
write to no write, which no theorem below relies on).  `buffer.clear()` runs
unconditionally, so a failed flush drops the buffered events. -/
def write_buffer (writeOk : Nat → Bool) (st : MetricsState) : MetricsState :=
  if writeOk st.flushCount then ⟨"", st.logFile ++ st.buffer, st.flushCount + 1⟩
  else ⟨"", st.logFile, st.flushCount + 1⟩

/-- Handling of one dequeued entry: `writeln!(&mut buffer, "{}", entry)`, then
`write_buffer` if the buffer exceeds 256 bytes. -/
def metricsStep (writeOk : Nat → Bool) (st : MetricsState) (entry : String) : MetricsState :=
  let buf := st.buffer ++ entry ++ "\n"
  if 256 < rustByteLen buf then write_buffer writeOk ⟨buf, st.logFile, st.flushCount⟩
  else ⟨buf, st.logFile, st.flushCount⟩

/-- End-of-channel handling: when the producer handle is dropped the receive
loop ends and a nonempty buffer goes through `write_buffer` once more. -/
def metricsFinish (writeOk : Nat → Bool) (st : MetricsState) : MetricsState :=
  if 0 < rustByteLen st.buffer then write_buffer writeOk st else st

/-- The whole consumer thread: entries are dequeued in arrival order, buffered
and flushed; teardown (`Drop for Metrics`) closes the channel and joins the
thread, so the final state is observed only after `metricsFinish`. -/
def metricsConsumer (writeOk : Nat → Bool) (entries : List String) : MetricsState :=
  metricsFinish writeOk (entries.foldl (metricsStep writeOk) ⟨"", "", 0⟩)

/-! ## Lemmas about `unique` and first-seen deduplication -/

theorem uniqueAux_congr : ∀ (l s₁ s₂ : List String),
    (∀ y, y ∈ s₁ ↔ y ∈ s₂) → uniqueAux s₁ l = uniqueAux s₂ l
  | [], _, _, _ => rfl
  | x :: xs, s₁, s₂, h => by
    by_cases hx : x ∈ s₁
    · rw [uniqueAux, uniqueAux, if_pos hx, if_pos ((h x).mp hx)]
      exact uniqueAux_congr xs s₁ s₂ h
    · rw [uniqueAux, uniqueAux, if_neg hx, if_neg (fun c => hx ((h x).mpr c))]
      exact congrArg (x :: ·) (uniqueAux_congr xs (x :: s₁) (x :: s₂) (by
        intro y
        simp only [List.mem_cons, h y]))

theorem mem_uniqueAux : ∀ (l seen : List String) (x : String),
    x ∈ uniqueAux seen l ↔ x ∈ l ∧ x ∉ seen
  | [], seen, x => by simp [uniqueAux]
  | y :: ys, seen, x => by
    by_cases hy : y ∈ seen
    · rw [uniqueAux, if_pos hy, mem_uniqueAux ys seen x]
      constructor
      · exact fun h => ⟨List.mem_cons_of_mem _ h.1, h.2⟩
      · rintro ⟨h1, h2⟩
        rcases List.mem_cons.mp h1 with rfl | h1
        · exact absurd hy h2
        · exact ⟨h1, h2⟩
    · rw [uniqueAux, if_neg hy]
      simp only [List.mem_cons, mem_uniqueAux ys (y :: seen) x]
      constructor
      · rintro (rfl | ⟨h1, h2⟩)
        · exact ⟨Or.inl rfl, hy⟩
        · exact ⟨Or.inr h1, fun c => h2 (Or.inr c)⟩
      · rintro ⟨rfl | h1, h2⟩
        · exact Or.inl rfl
        · by_cases hxy : x = y
          · exact Or.inl hxy
          · exact Or.inr ⟨h1, by simp [List.mem_cons, hxy, h2]⟩

theorem nodup_uniqueAux : ∀ (l seen : List String), (uniqueAux seen l).Nodup
  | [], _ => List.nodup_nil
  | y :: ys, seen => by
    by_cases hy : y ∈ seen
    · rw [uniqueAux, if_pos hy]
      exact nodup_uniqueAux ys seen
    · rw [uniqueAux, if_neg hy]
      refine List.nodup_cons.mpr ⟨?_, nodup_uniqueAux ys (y :: seen)⟩
      intro hmem
      exact ((mem_uniqueAux ys (y :: seen) y).mp hmem).2 (List.mem_cons_self y seen)

theorem nodup_computeFragments (textNodes : List String) (text : String) :
    (computeFragments textNodes text).Nodup :=
  nodup_uniqueAux _ _

theorem mem_computeFragments (textNodes : List String) (text : String) (x : String) :
    x ∈ computeFragments textNodes text ↔
      x ∈ textNodes.filterMap (fun y => if rustContains y text then some y else none) := by
  rw [computeFragments, unique, mem_uniqueAux]
  simp

theorem dedup_foldl_eq_uniqueAux : ∀ (l acc : List String),
    l.foldl (fun a x => if x ∈ a then a else a ++ [x]) acc = acc ++ uniqueAux acc l
  | [], acc => by simp [uniqueAux]
  | x :: xs, acc => by
    by_cases hx : x ∈ acc
    · rw [List.foldl_cons, if_pos hx, uniqueAux, if_pos hx]
      exact dedup_foldl_eq_uniqueAux xs acc
    · rw [List.foldl_cons, if_neg hx, uniqueAux, if_neg hx,
        dedup_foldl_eq_uniqueAux xs (acc ++ [x]),
        uniqueAux_congr xs (acc ++ [x]) (x :: acc) (by
          intro y
          simp only [List.mem_append, List.mem_cons, List.mem_singleton]
          tauto)]
      simp

theorem filterMap_if_eq_filter (p : String → Bool) : ∀ l : List String,
    l.filterMap (fun x => if p x then some x else none) = l.filter p
  | [] => rfl
  | x :: xs => by
    by_cases hx : p x <;>
      simp [List.filterMap_cons, List.filter_cons, hx, filterMap_if_eq_filter p xs]

theorem computeFragments_eq_specFragments (textNodes : List String) (text : String) :
    computeFragments textNodes text = specFragments textNodes text := by
  rw [computeFragments, unique, specFragments, filterMap_if_eq_filter,
    dedup_foldl_eq_uniqueAux]
  simp

/-! ## Lemmas about `writeln!` joining and `str::lines` -/

theorem splitNL_append_newline : ∀ (f r : List Char), '\n' ∉ f →
    splitNL (f ++ '\n' :: r) = f :: splitNL r
  | [], r, _ => by simp [splitNL]
  | c :: f, r, h => by
    have hc : c ≠ '\n' := fun e => h (e ▸ List.mem_cons_self c f)
    have hf : '\n' ∉ f := fun m => h (List.mem_cons_of_mem c m)
    rw [List.cons_append]
    simp only [splitNL]
    rw [splitNL_append_newline f r hf]
    simp [hc]

theorem data_writelnJoin_cons (f : String) (fs : List String) :
    (writelnJoin (f :: fs)).data = f.data ++ '\n' :: (writelnJoin fs).data := by
  have hnl : ("\n" : String).data = ['\n'] := rfl
  simp [writelnJoin, String.data_append, hnl]

theorem splitNL_writelnJoin : ∀ fs : List String, (∀ f ∈ fs, '\n' ∉ f.data) →
    splitNL (writelnJoin fs).data = fs.map String.data ++ [[]]
  | [], _ => rfl
  | f :: fs, h => by
    rw [data_writelnJoin_cons,
      splitNL_append_newline f.data _ (h f (List.mem_cons_self f fs)),
      splitNL_writelnJoin fs (fun g hg => h g (List.mem_cons_of_mem f hg))]
    simp

theorem dropFinalEmpty_append : ∀ l : List (List Char), dropFinalEmpty (l ++ [[]]) = l
  | [] => rfl
  | [_] => rfl
  | x :: y :: l => by
    have ih := dropFinalEmpty_append (y :: l)
    simp only [List.cons_append] at ih ⊢
    rw [dropFinalEmpty, ih]
    simp

theorem stripCR_eq_self {l : List Char} (h : l.getLast? ≠ some '\r') : stripCR l = l :=
  if_neg h

theorem map_mk_stripCR : ∀ fs : List String, (∀ f ∈ fs, f.data.getLast? ≠ some '\r') →
    (fs.map String.data).map (fun l => String.mk (stripCR l)) = fs
  | [], _ => rfl
  | f :: fs, h => by
    rw [List.map_cons, List.map_cons, stripCR_eq_self (h f (List.mem_cons_self f fs)),
      map_mk_stripCR fs (fun g hg => h g (List.mem_cons_of_mem f hg))]

theorem rustLines_writelnJoin (fs : List String)
    (h : ∀ f ∈ fs, '\n' ∉ f.data ∧ f.data.getLast? ≠ some '\r') :
    rustLines (writelnJoin fs) = fs := by
  rw [rustLines, splitNL_writelnJoin fs (fun f hf => (h f hf).1), dropFinalEmpty_append,
    map_mk_stripCR fs (fun f hf => (h f hf).2)]

/-! ## Counting `Sender::send` invocations -/

theorem string_append_cancel_left {s a b : String} (h : s ++ a = s ++ b) : a = b := by
  have hd := congrArg String.data h
  rw [String.data_append, String.data_append] at hd
  exact congrArg String.mk (List.append_cancel_left hd)

theorem sentMsg_mk_injective (t : Target) :
    Function.Injective
      (fun x : String => SentMsg.mk "everyone@everyone.com" t ("Found match: " ++ x)) := by
  intro a b h
  simp only [SentMsg.mk.injEq, true_and] at h
  exact string_append_cancel_left h

theorem contains_true_iff (l : List String) (x : String) : l.contains x = true ↔ x ∈ l :=
  List.elem_iff

theorem handle_sent_eq (oldRead : Option String) (textNodes : List String) (t : Target) :
    (handle_page_content oldRead textNodes t).sent
      = ((computeFragments textNodes t.text).filter
          (fun x => !((rustLines (oldRead.getD "")).contains x))).map
        (fun x => ⟨"everyone@everyone.com", t, "Found match: " ++ x⟩) := rfl

theorem count_handle_sent (oldRead : Option String) (textNodes : List String)
    (t : Target) (x : String) :
    ((handle_page_content oldRead textNodes t).sent).count
        ⟨"everyone@everyone.com", t, "Found match: " ++ x⟩
      = if x ∈ computeFragments textNodes t.text ∧ x ∉ rustLines (oldRead.getD "")
          then 1 else 0 := by
  rw [handle_sent_eq]
  rw [show (SentMsg.mk "everyone@everyone.com" t ("Found match: " ++ x))
      = (fun y : String => SentMsg.mk "everyone@everyone.com" t ("Found match: " ++ y)) x
    from rfl]
  rw [List.count_map_of_injective _ _ (sentMsg_mk_injective t) x]
  by_cases hmem : x ∈ computeFragments textNodes t.text ∧ x ∉ rustLines (oldRead.getD "")
  · rw [if_pos hmem]
    refine List.count_eq_one_of_mem
      (List.Nodup.filter _ (nodup_computeFragments textNodes t.text)) ?_
    refine List.mem_filter.mpr ⟨hmem.1, ?_⟩
    rw [Bool.not_eq_true']
    rcases hcon : (rustLines (oldRead.getD "")).contains x with _ | _
    · rfl
    · exact absurd ((contains_true_iff _ _).mp hcon) hmem.2
  · rw [if_neg hmem]
    refine List.count_eq_zero_of_not_mem ?_
    intro hc
    rcases List.mem_filter.mp hc with ⟨h1, h2⟩
    rw [Bool.not_eq_true'] at h2
    refine hmem ⟨h1, fun hx => ?_⟩
    rw [(contains_true_iff _ _).mpr hx] at h2
    cases h2

/-! ## Lemmas about the cache store -/

theorem find?_filter_ne_none (db : List (String × String)) (key : String) :
    (db.filter (fun kv => kv.1 != key)).find? (fun kv => kv.1 == key) = none := by
  induction db with
  | nil => rfl
  | cons kv db ih =>
    by_cases h : kv.1 = key
    · rw [List.filter_cons_of_neg (by simp [h])]
      exact ih
    · rw [List.filter_cons_of_pos (by simp [h])]
      rw [List.find?_cons_of_neg _ (by simp [h])]
      exact ih

theorem dbGet_dbPut_self (db : List (String × String)) (key value : String) :
    dbGet (dbPut db key value) key = some value := by
  rw [dbGet, dbPut, List.find?_append, find?_filter_ne_none]
  simp [List.find?]

/-! ## Lemmas about the aggregation loop -/

theorem processMessageE_eq (rf pf : Bool) (parse : String → List String)
    (st : ScrapeState) (m : Target × FetchOutcome) :
    processMessageE rf pf parse st m = Except.ok (processMessage rf pf parse st m) := by
  rcases m with ⟨t, msg⟩
  cases msg <;> rfl

theorem scrapeE_eq_ok : ∀ (msgs : List (Target × FetchOutcome)) (rf pf : Bool)
    (parse : String → List String) (st : ScrapeState),
    scrapeE rf pf parse st msgs = Except.ok (msgs.foldl (processMessage rf pf parse) st)
  | [], _, _, _, _ => rfl
  | m :: ms, rf, pf, parse, st => by
    rw [scrapeE, List.foldlM_cons, processMessageE_eq]
    show scrapeE rf pf parse (processMessage rf pf parse st m) ms = _
    rw [scrapeE_eq_ok ms rf pf parse _, List.foldl_cons]

theorem metrics_processMessage (rf pf : Bool) (parse : String → List String)
    (st : ScrapeState) (m : Target × FetchOutcome) :
    (processMessage rf pf parse st m).metrics
      = st.metrics ++ [(m.1.uri, outcomeStatus m.2)] := by
  rcases m with ⟨t, msg⟩
  cases msg <;> rfl

theorem metrics_foldl : ∀ (msgs : List (Target × FetchOutcome)) (rf pf : Bool)
    (parse : String → List String) (st : ScrapeState),
    (msgs.foldl (processMessage rf pf parse) st).metrics
      = st.metrics ++ msgs.map (fun m => (m.1.uri, outcomeStatus m.2))
  | [], _, _, _, st => by simp
  | m :: ms, rf, pf, parse, st => by
    rw [List.foldl_cons, metrics_foldl ms rf pf parse _, metrics_processMessage]
    simp

/-! ## Lemmas about the metrics consumer -/

theorem foldl_utf8_shift : ∀ (l : List Char) (n : Nat),
    l.foldl (fun n c => n + c.utf8Size) n = n + l.foldl (fun n c => n + c.utf8Size) 0
  | [], n => by simp
  | c :: l, n => by
    rw [List.foldl_cons, List.foldl_cons, foldl_utf8_shift l (n + c.utf8Size),
      foldl_utf8_shift l (0 + c.utf8Size)]
    omega

theorem rustByteLen_append (a b : String) :
    rustByteLen (a ++ b) = rustByteLen a + rustByteLen b := by
  rw [rustByteLen, rustByteLen, rustByteLen, String.data_append, List.foldl_append,
    foldl_utf8_shift]

theorem rustByteLen_newline : rustByteLen "\n" = 1 := by decide

theorem write_buffer_ok (writeOk : Nat → Bool) (hok : ∀ n, writeOk n = true)
    (st : MetricsState) :
    write_buffer writeOk st = ⟨"", st.logFile ++ st.buffer, st.flushCount + 1⟩ := by
  rw [write_buffer, if_pos (hok st.flushCount)]

theorem write_buffer_buffer (writeOk : Nat → Bool) (st : MetricsState) :
    (write_buffer writeOk st).buffer = "" := by
  rw [write_buffer]
  by_cases h : writeOk st.flushCount = true
  · rw [if_pos h]
  · rw [if_neg h]

theorem metricsStep_buffer (writeOk : Nat → Bool) (st : MetricsState) (e : String) :
    (metricsStep writeOk st e).buffer = ""
      ∨ 0 < rustByteLen (metricsStep writeOk st e).buffer := by
  simp only [metricsStep]
  by_cases h : 256 < rustByteLen (st.buffer ++ e ++ "\n")
  · rw [if_pos h]
    exact Or.inl (write_buffer_buffer writeOk _)
  · rw [if_neg h]
    right
    show 0 < rustByteLen (st.buffer ++ e ++ "\n")
    rw [rustByteLen_append, rustByteLen_append, rustByteLen_newline]
    omega

theorem metrics_fold_buffer (writeOk : Nat → Bool) :
    ∀ (entries : List String) (st : MetricsState),
    (st.buffer = "" ∨ 0 < rustByteLen st.buffer) →
    ((entries.foldl (metricsStep writeOk) st).buffer = ""
      ∨ 0 < rustByteLen (entries.foldl (metricsStep writeOk) st).buffer)
  | [], _, h => h
  | e :: es, st, _ => by
    rw [List.foldl_cons]
    exact metrics_fold_buffer writeOk es (metricsStep writeOk st e)
      (metricsStep_buffer writeOk st e)

theorem metrics_fold_log (writeOk : Nat → Bool) (hok : ∀ n, writeOk n = true) :
    ∀ (entries : List String) (st : MetricsState),
    (entries.foldl (metricsStep writeOk) st).logFile
        ++ (entries.foldl (metricsStep writeOk) st).buffer
      = st.logFile ++ (st.buffer ++ writelnJoin entries)
  | [], st => by
    rw [writelnJoin]
    simp [String.append_empty]
  | e :: es, st => by
    rw [List.foldl_cons, metrics_fold_log writeOk hok es (metricsStep writeOk st e)]
    simp only [metricsStep, writelnJoin]
    by_cases h : 256 < rustByteLen (st.buffer ++ e ++ "\n")
    · rw [if_pos h, write_buffer_ok writeOk hok]
      simp [String.append_assoc, String.empty_append]
    · rw [if_neg h]
      simp [String.append_assoc]

theorem metricsConsumer_spec (writeOk : Nat → Bool) (hok : ∀ n, writeOk n = true)
    (entries : List String) :
    (metricsConsumer writeOk entries).logFile = writelnJoin entries
      ∧ (metricsConsumer writeOk entries).buffer = "" := by
  rw [metricsConsumer, metricsFinish]
  have hlog : (entries.foldl (metricsStep writeOk) ⟨"", "", 0⟩).logFile
      ++ (entries.foldl (metricsStep writeOk) ⟨"", "", 0⟩).buffer = writelnJoin entries := by
    simpa [String.empty_append] using metrics_fold_log writeOk hok entries ⟨"", "", 0⟩
  have hbuf := metrics_fold_buffer writeOk entries ⟨"", "", 0⟩ (Or.inl rfl)
  by_cases h : 0 < rustByteLen (entries.foldl (metricsStep writeOk) ⟨"", "", 0⟩).buffer
  · rw [if_pos h, write_buffer_ok writeOk hok]
    exact ⟨hlog, rfl⟩
  · rw [if_neg h]
    rcases hbuf with hb | hb
    · rw [hb, String.append_empty] at hlog
      exact ⟨hlog, hb⟩
    · exact absurd hb h

/-! ## Auxiliary facts used in claim proofs -/

theorem filter_not_contains_self (l : List String) :
    l.filter (fun x => !(l.contains x)) = [] := by
  have key : ∀ m : List String, (∀ x ∈ m, x ∈ l) → m.filter (fun x => !(l.contains x)) = [] := by
    intro m
    induction m with
    | nil => exact fun _ => rfl
    | cons y m ih =>
      intro hm
      have hy : l.contains y = true :=
        (contains_true_iff l y).mpr (hm y (List.mem_cons_self y m))
      rw [List.filter_cons_of_neg (by rw [hy]; decide)]
      exact ih (fun x hx => hm x (List.mem_cons_of_mem y hx))
  exact key l (fun x hx => hx)

theorem filter_not_contains_nil (l : List String) :
    l.filter (fun x => !(([] : List String).contains x)) = l := by
  induction l with
  | nil => rfl
  | cons y l ih => rw [List.filter_cons_of_pos rfl, ih]

theorem handle_some_empty (textNodes : List String) (t : Target) :
    handle_page_content (some "") textNodes t = handle_page_content none textNodes t := rfl

theorem rustLines_empty : rustLines "" = [] := rfl

/-! ## Concrete inputs used by example conjuncts, counterexamples and witnesses -/

/-- A target on a fixed page with a given match text. -/
def exTarget (text : String) : Target :=
  ⟨"https://example.org/page", text, ""⟩

/-- Text nodes produced by the external HTML library for the page content
`<li>meow</li><li>cactus</li><li>meow mathew</li>`: parsing wraps the three
list items into `html > head, body`; `select("*")` visits the elements
`html, head, body, li, li, li` in tree order and `.text()` yields for each of
them all descendant text nodes, so the flattened stream repeats the three
texts for `html`, for `body` and once each for the list items.  The
deduplication inside `handle_page_content` collapses the repetitions. -/
def meowNodes : List String :=
  ["meow", "cactus", "meow mathew",
   "meow", "cactus", "meow mathew",
   "meow", "cactus", "meow mathew"]

/-! ## Claims -/

/-- C1: for every successfully fetched body and target, the fragment set
computed by `handle_page_content` is exactly the distinct text nodes of the
parsed document, in document order, that contain the target text as a
case-sensitive literal substring, deduplicated preserving first-seen order
(`computeFragments` is the code pipeline, `specFragments` the wording of the
specification); on the page
`<li>meow</li><li>cactus</li><li>meow mathew</li>` with match text `meow` the
fragment set is `[meow, meow mathew]` and a first run against an empty cache
produces exactly two notifications. -/
theorem c1_fragment_extraction :
    (∀ (textNodes : List String) (text : String),
        computeFragments textNodes text = specFragments textNodes text)
    ∧ computeFragments meowNodes "meow" = ["meow", "meow mathew"]
    ∧ ((handle_page_content none meowNodes (exTarget "meow")).sent).length = 2 :=
  ⟨computeFragments_eq_specFragments, by decide, by decide⟩

/-- C2: for every successfully fetched target, `Sender::send` is invoked
exactly once for each fragment in the fresh fragment set that is absent from
the cached fragment set, and never for a fragment present in both: the number
of send invocations carrying fragment `x` is `1` when `x` is a fresh fragment
not among the cached lines and `0` otherwise.  With cached set `{A}` and
fetched fragments `{A, B}`, exactly one notification is produced, for `B`. -/
theorem c2_new_fragment_notifications :
    (∀ (oldRead : Option String) (textNodes : List String) (t : Target) (x : String),
        ((handle_page_content oldRead textNodes t).sent).count
            ⟨"everyone@everyone.com", t, "Found match: " ++ x⟩
          = if x ∈ computeFragments textNodes t.text ∧ x ∉ rustLines (oldRead.getD "")
              then 1 else 0)
    ∧ (handle_page_content (some "A\n") ["A", "B"] (exTarget "")).sent
        = [⟨"everyone@everyone.com", exTarget "", "Found match: B"⟩] :=
  ⟨count_handle_sent, by decide⟩

/-- C3 counterexample: a non-2xx HTTP response is not classified as a failed
fetch.  `reqwest::blocking::get` returns `Ok(response)` for every received
response; the worker thread therefore maps a 404 response with a decodable
body to `ThreadMessage::Ok(body)`, not to `Err(status)` as the claim
states. -/
theorem c3_counterexample :
    threadMessageOf natStatusString (HttpEvent.response 404 (Except.ok "page body"))
      = FetchOutcome.ok "page body" := rfl

/-- C3 (amended): for every fetch that fails at the transport level or whose
body fails to decode, the outcome is `Err(status)` where the status is derived
from the wire-level status code carried by the error, or `unknown` when none
is available; the aggregation then records a metrics event with that status,
performs no diffing, sends no notification for that target, and leaves the
cache untouched.  A non-2xx response with a decodable body is classified as a
success. -/
theorem c3_error_path (sstr : Nat → String) (code : Nat) (etext : String)
    (rf pf : Bool) (parse : String → List String) (st : ScrapeState)
    (t : Target) (s : String) :
    threadMessageOf sstr (HttpEvent.response code (Except.error etext))
        = FetchOutcome.err (sstr code)
    ∧ threadMessageOf sstr (HttpEvent.transportFailure (some code))
        = FetchOutcome.err (sstr code)
    ∧ threadMessageOf sstr (HttpEvent.transportFailure none)
        = FetchOutcome.err "unknown"
    ∧ (processMessage rf pf parse st (t, FetchOutcome.err s)).cache = st.cache
    ∧ (processMessage rf pf parse st (t, FetchOutcome.err s)).sent = st.sent
    ∧ (processMessage rf pf parse st (t, FetchOutcome.err s)).metrics
        = st.metrics ++ [(t.uri, s)] :=
  ⟨rfl, rfl, rfl, rfl, rfl, rfl⟩

/-- C4: after every successful fetch the cache entry of the target is
overwritten, not merged: the written value is the newline-join of the current
fragment set whatever the previous contents were, an empty fragment set writes
the empty value, and reading the key back after the update returns exactly the
new value.  With cached set `{A, B}` and a fetch yielding only `{A}` there are
zero notifications and the cache afterwards holds exactly `A`. -/
theorem c4_cache_overwrite :
    (∀ (oldRead : Option String) (textNodes : List String) (t : Target),
        (handle_page_content oldRead textNodes t).cacheValue
          = writelnJoin (computeFragments textNodes t.text))
    ∧ (∀ (rf : Bool) (parse : String → List String) (st : ScrapeState)
          (t : Target) (body : String),
        dbGet (processMessage rf false parse st (t, FetchOutcome.ok body)).cache (target_id t)
          = some (handle_page_content (dbRead rf st.cache (target_id t)) (parse body) t).cacheValue)
    ∧ (∀ (oldRead : Option String) (t : Target),
        (handle_page_content oldRead [] t).cacheValue = "")
    ∧ (handle_page_content (some "A\nB\n") ["A"] (exTarget "")).sent = []
    ∧ (handle_page_content (some "A\nB\n") ["A"] (exTarget "")).cacheValue = "A\n" :=
  ⟨fun _ _ _ => rfl,
   fun rf parse st t body => dbGet_dbPut_self st.cache (target_id t) _,
   fun _ _ => rfl,
   by decide, by decide⟩

/-- C5 counterexample: a run over an empty target list does not terminate
with an error: with no targets the aggregation loop receives no messages and
`scrape` returns `Ok(())` over the unchanged state. -/
theorem c5_counterexample :
    scrapeE false false noParse ⟨[], [], []⟩ [] = Except.ok ⟨[], [], []⟩ := rfl

/-- C5 (amended): `scrape` never returns an error — the target list is
already enumerated when it is called, and per-target fetch, cache-read,
cache-write, or metrics failures neither make the run fail nor abort sibling
targets: the run returns `Ok` over the fold of the per-message processing,
and a metrics event is recorded for every received message regardless of the
outcomes of the others.  In particular an empty target list yields `Ok`. -/
theorem c5_run_never_errors (rf pf : Bool) (parse : String → List String)
    (st : ScrapeState) (msgs : List (Target × FetchOutcome)) :
    scrapeE rf pf parse st msgs
        = Except.ok (msgs.foldl (processMessage rf pf parse) st)
    ∧ (msgs.foldl (processMessage rf pf parse) st).metrics
        = st.metrics ++ msgs.map (fun m => (m.1.uri, outcomeStatus m.2)) :=
  ⟨scrapeE_eq_ok msgs rf pf parse st, metrics_foldl msgs rf pf parse st⟩

/-- C6 counterexample: a text node containing an embedded newline defeats the
idempotence of no-op runs.  The node `x\x0ay` matches text `x`; the first run
stores `x\x0ay\x0a`, whose lines are `x` and `y`, so an identical second run
does not find the fragment among the cached lines and notifies again. -/
theorem c6_counterexample :
    ¬ ((handle_page_content
        (some (handle_page_content none ["x\ny"] (exTarget "x")).cacheValue)
        ["x\ny"] (exTarget "x")).sent = []) := by decide

/-- C6 (amended): for every target whose fetched content is unchanged between
two consecutive runs, the first cache write having succeeded, the second run
produces zero notifications, provided no extracted matching fragment contains
a newline character or ends with a carriage return. -/
theorem c6_noop_idempotent (oldRead : Option String) (textNodes : List String) (t : Target)
    (h : ∀ f ∈ computeFragments textNodes t.text,
      '\n' ∉ f.data ∧ f.data.getLast? ≠ some '\r') :
    (handle_page_content
        (some (handle_page_content oldRead textNodes t).cacheValue)
        textNodes t).sent = [] := by
  have hfr : rustLines ((some (handle_page_content oldRead textNodes t).cacheValue).getD "")
      = computeFragments textNodes t.text := rustLines_writelnJoin _ h
  rw [handle_sent_eq, hfr, filter_not_contains_self]
  rfl

/-- C6 witness: a concrete unchanged page with a newline-free fragment gives
zero notifications on the second run. -/
theorem c6_witness :
    (handle_page_content
        (some (handle_page_content none ["hello meow"] (exTarget "meow")).cacheValue)
        ["hello meow"] (exTarget "meow")).sent = [] :=
  c6_noop_idempotent none ["hello meow"] (exTarget "meow") (by decide)

/-- C7: processing a target behaves identically when its cache entry is
absent, when the cache read fails, and when the cache entry is the empty
string — all three reads reach `handle_page_content` as an empty previous
fragment set, and every current match is then re-emitted as new. -/
theorem c7_cache_fallback_equiv (dbA dbB dbC : List (String × String))
    (t : Target) (textNodes : List String)
    (hA : dbGet dbA (target_id t) = none)
    (hC : dbGet dbC (target_id t) = some "") :
    (handle_page_content (dbRead false dbA (target_id t)) textNodes t
        = handle_page_content (dbRead true dbB (target_id t)) textNodes t)
    ∧ (handle_page_content (dbRead false dbC (target_id t)) textNodes t
        = handle_page_content (dbRead true dbB (target_id t)) textNodes t)
    ∧ (handle_page_content (dbRead true dbB (target_id t)) textNodes t).sent
        = (computeFragments textNodes t.text).map
            (fun x => SentMsg.mk "everyone@everyone.com" t ("Found match: " ++ x)) := by
  have hB : dbRead true dbB (target_id t) = none := rfl
  refine ⟨?_, ?_, ?_⟩
  · show handle_page_content (dbGet dbA (target_id t)) textNodes t
      = handle_page_content (dbRead true dbB (target_id t)) textNodes t
    rw [hA, hB]
  · show handle_page_content (dbGet dbC (target_id t)) textNodes t
      = handle_page_content (dbRead true dbB (target_id t)) textNodes t
    rw [hC, hB]
    exact handle_some_empty textNodes t
  · rw [handle_sent_eq, hB]
    rw [Option.getD_none, rustLines_empty, filter_not_contains_nil]

/-- C7 witness: the three cache configurations agree on a concrete store and
page, and all matches are emitted. -/
theorem c7_witness :
    (handle_page_content (dbRead true [("k", "v")] (target_id (exTarget "meow")))
        ["x meow y"] (exTarget "meow")).sent
      = (computeFragments ["x meow y"] "meow").map
          (fun x => SentMsg.mk "everyone@everyone.com" (exTarget "meow") ("Found match: " ++ x)) :=
  (c7_cache_fallback_equiv [] [("k", "v")] [(target_id (exTarget "meow"), "")]
      (exTarget "meow") ["x meow y"] (by decide) (by decide)).2.2

/-- C8 counterexample: a cache write reachable in one step from the empty
cache whose stored value, split into lines, repeats a fragment.  The page
with text nodes `a\x0ab` and `b` and match text `b` stores
`a\x0ab\x0ab\x0a`, whose lines are `a`, `b`, `b`. -/
theorem c8_counterexample :
    ¬ (rustLines (handle_page_content none ["a\nb", "b"] (exTarget "b")).cacheValue).Nodup := by
  decide

/-- C8 (amended): every cache value the scraper writes is the newline-join of
a duplicate-free fragment list; provided no written fragment contains an
embedded newline or ends with a carriage return, the stored value splits back
into exactly that list and therefore contains no repeated fragment. -/
theorem c8_cache_value_nodup (oldRead : Option String) (textNodes : List String) (t : Target)
    (h : ∀ f ∈ computeFragments textNodes t.text,
      '\n' ∉ f.data ∧ f.data.getLast? ≠ some '\r') :
    (computeFragments textNodes t.text).Nodup
    ∧ rustLines (handle_page_content oldRead textNodes t).cacheValue
        = computeFragments textNodes t.text
    ∧ (rustLines (handle_page_content oldRead textNodes t).cacheValue).Nodup := by
  have hrt : rustLines (handle_page_content oldRead textNodes t).cacheValue
      = computeFragments textNodes t.text := rustLines_writelnJoin _ h
  refine ⟨nodup_computeFragments _ _, hrt, ?_⟩
  rw [hrt]
  exact nodup_computeFragments _ _

/-- C8 witness: a concrete write whose stored value splits back into the
duplicate-free fragment list. -/
theorem c8_witness :
    rustLines (handle_page_content none ["hello meow"] (exTarget "meow")).cacheValue
      = computeFragments ["hello meow"] "meow" :=
  (c8_cache_value_nodup none ["hello meow"] (exTarget "meow") (by decide)).2.1

/-- C9 counterexample: an accepted metrics event can reach the durable log
zero times, not exactly once.  When `OpenOptions::open` fails on the
close-triggered flush (`writeOk` constantly false), `write_buffer` logs the
error, appends nothing, and clears the buffer anyway, so the dequeued entry
is lost and the final log is empty rather than the newline-terminated
record. -/
theorem c9_counterexample :
    (metricsConsumer (fun _ => false)
        ["1700000000,inc_req,https://example.org/page,OK"]).logFile = ""
    ∧ (metricsConsumer (fun _ => false)
        ["1700000000,inc_req,https://example.org/page,OK"]).logFile
      ≠ writelnJoin ["1700000000,inc_req,https://example.org/page,OK"] :=
  ⟨rfl, by decide⟩

/-- C9 (amended): on every run in which each flush to the durable log
succeeds, every metrics event accepted by the background consumer is appended
to the log exactly once, as one newline-terminated record, in dequeue order:
after the channel closes (producer handle dropped, teardown joining the
thread) the log holds exactly the newline-join of the dequeued entries and
the buffer is empty; the consumer flushes whenever the buffer exceeds 256
bytes, and the close-triggered finish flushes any remaining nonempty buffer.
When opening or writing the log fails, the flush is logged and swallowed and
the buffer is cleared anyway, so the affected events are dropped (metrics are
best-effort). -/
theorem c9_metrics_consumer (writeOk : Nat → Bool) (hok : ∀ n, writeOk n = true) :
    (∀ entries : List String,
        (metricsConsumer writeOk entries).logFile = writelnJoin entries
          ∧ (metricsConsumer writeOk entries).buffer = "")
    ∧ (∀ (st : MetricsState) (e : String),
        256 < rustByteLen (st.buffer ++ e ++ "\n") →
          metricsStep writeOk st e
            = ⟨"", st.logFile ++ (st.buffer ++ e ++ "\n"), st.flushCount + 1⟩)
    ∧ (∀ st : MetricsState, 0 < rustByteLen st.buffer →
        metricsFinish writeOk st = ⟨"", st.logFile ++ st.buffer, st.flushCount + 1⟩) := by
  refine ⟨metricsConsumer_spec writeOk hok, ?_, ?_⟩
  · intro st e h
    simp only [metricsStep]
    rw [if_pos h, write_buffer_ok writeOk hok]
  · intro st h
    rw [metricsFinish, if_pos h, write_buffer_ok writeOk hok]

/-- C9 witness: with all flushes succeeding, one concrete record is logged
exactly once with a trailing newline. -/
theorem c9_witness :
    (metricsConsumer (fun _ => true)
        ["1700000000,inc_req,https://example.org/page,OK"]).logFile
      = writelnJoin ["1700000000,inc_req,https://example.org/page,OK"] :=
  ((c9_metrics_consumer (fun _ => true) (fun _ => rfl)).1
      ["1700000000,inc_req,https://example.org/page,OK"]).1

/-- C10 counterexample: a fragment with no newline character whose stored
value does not split back into the computed fragment set.  The fragment
`a\x0dr` ends with a carriage return; `writeln!` stores `a\x0d\x0a` and the
line-splitting used on read strips the carriage return, producing `a`. -/
theorem c10_counterexample :
    ("a\r".data.contains '\n') = false
    ∧ computeFragments ["a\r"] "a" = ["a\r"]
    ∧ rustLines (handle_page_content none ["a\r"] (exTarget "a")).cacheValue = ["a"]
    ∧ rustLines (handle_page_content none ["a\r"] (exTarget "a")).cacheValue
        ≠ computeFragments ["a\r"] "a" := by decide

/-- C10 (amended): for every run of `handle_page_content` in which no
extracted matching fragment contains a newline character or ends with a
carriage return, the written cache value splits back, via the line-splitting
used on read, into exactly the deduplicated fragment set that was computed;
fragments are not validated, and a fragment that does contain a newline is
stored as multiple separate lines, so such a value no longer round-trips. -/
theorem c10_roundtrip (oldRead : Option String) (textNodes : List String) (t : Target)
    (h : ∀ f ∈ computeFragments textNodes t.text,
      '\n' ∉ f.data ∧ f.data.getLast? ≠ some '\r') :
    rustLines (handle_page_content oldRead textNodes t).cacheValue
        = computeFragments textNodes t.text
    ∧ rustLines (writelnJoin ["a\nb"]) = ["a", "b"] :=
  ⟨rustLines_writelnJoin _ h, by decide⟩

/-- C10 witness: a concrete newline-free run whose cache value round-trips. -/
theorem c10_witness :
    rustLines (handle_page_content none ["x meow", "y meow"] (exTarget "meow")).cacheValue
      = computeFragments ["x meow", "y meow"] "meow" :=
  (c10_roundtrip none ["x meow", "y meow"] (exTarget "meow") (by decide)).1

end Lmk
